import Mathlib

/-!
# Verification of mail_from_formidable_forms_extractor

A shallow embedding of `src/mail_from_formidable_forms_extractor.py`:
a tool that fetches messages from an IMAP mailbox, filters them by four
exact header comparisons, extracts 16 named capture groups with a fixed
regular expression, and writes the records to a CSV file.

The embedding models a run on an abstract list of fetched messages (the
IMAP transport itself is outside the program logic): each message is the
result of header lookup (four `Option String` header values, `none` when
the header is absent, as in Python's `msg[name]`) plus the full message
text that `str(msg)` yields and `EXTRACTION_REGEXP.search` scans.

The extraction regular expression is backtracking-free: every repeated
class (`\d+`, `[^"]*`, `[^"]+`) is followed by a character (`"`) that the
class cannot match, and the single optional group starts with a literal
that is incompatible with the alternative continuation, so greedy
maximal-munch matching is equivalent to the full regex semantics.  The
embedding below therefore implements the pattern as a deterministic
parser, and `search` as the leftmost attempt loop.  `\d` is modelled as a
decimal digit `0`-`9`.
-/

namespace MailExtractor

/-! ## Fixed configuration strings (from `check_if_message_to_skip`) -/

def expectedEnvelopeFrom : String := "<some_address@example.org>"

def expectedEnvelopeTo : String := "<another_address@example.org>"

def expectedFrom : String := "<some_address@example.org>"

def expectedTo : String := "another_address@example.org, further_address@example.org"

/-! ## Messages -/

/-- A fetched message, after decoding and strict header parsing: the four
header values the filter reads (`none` when the header is absent, as
Python's `msg[name]` returns `None`), and the full text `str(msg)` that
the extraction regular expression searches. -/
structure Msg where
  xEnvelopeFrom : Option String
  xEnvelopeTo : Option String
  fromHeader : Option String
  toHeader : Option String
  text : String
  deriving DecidableEq, Repr

/-- `check_if_message_to_skip`: true when any of the four header values
differs from its fixed configured string. -/
def check_if_message_to_skip (msg : Msg) : Bool :=
  (msg.xEnvelopeFrom != some expectedEnvelopeFrom)
    || (msg.xEnvelopeTo != some expectedEnvelopeTo)
    || (msg.fromHeader != some expectedFrom)
    || (msg.toHeader != some expectedTo)

/-! ## The extraction regular expression -/

/-- The dictionary of the 16 named capture groups of `EXTRACTION_REGEXP`. -/
structure Groupdict where
  eintrags_id : String
  key : String
  anzahl_personen : String
  zahlungsstatus : String
  name : String
  vorname : String
  mail : String
  telefon : String
  sonstiges : String
  club : String
  teilnehmer_2 : String
  teilnehmer_3 : String
  teilnehmer_4 : String
  teilnehmer_5 : String
  teilnehmer_6 : String
  teilnehmer_7 : String
  deriving DecidableEq, Repr

/-- Match a literal string: `dropLit lit s` returns the remainder of `s`
after the prefix `lit`, or `none` when `s` does not start with `lit`. -/
def dropLit : List Char → List Char → Option (List Char)
  | [], s => some s
  | _ :: _, [] => none
  | c :: cs, d :: ds => if d = c then dropLit cs ds else none

/-- `\d\.\d\.\d` (the WPMailSMTP version number). -/
def matchVer3 : List Char → Option (List Char)
  | a :: '.' :: b :: '.' :: c :: rest =>
      if a.isDigit && b.isDigit && c.isDigit then some rest else none
  | _ => none

/-- `\d\.\d` (the MIME version number). -/
def matchVer2 : List Char → Option (List Char)
  | a :: '.' :: b :: rest =>
      if a.isDigit && b.isDigit then some rest else none
  | _ => none

/-- The optional group `(\nContent-Transfer-Encoding: 8bit)?`: consume the
literal when present, otherwise continue unchanged.  (The group's literal
starts with `\n` followed by `C`, while the regex continues with `\n\n`,
so at most one alternative can proceed.) -/
def skipOptionalCte (s : List Char) : List Char :=
  match dropLit "\nContent-Transfer-Encoding: 8bit".toList s with
  | some rest => rest
  | none => s

/-- A quoted digits group `\"(\d+)\"`: the opening quote, one or more
digits, the closing quote.  Returns the captured token and remainder. -/
def grpDigits : List Char → Option (List Char × List Char)
  | [] => none
  | c :: rest =>
      if c = '"' then
        if (rest.takeWhile Char.isDigit).isEmpty then none
        else
          match rest.dropWhile Char.isDigit with
          | [] => none
          | d :: rest2 =>
              if d = '"' then some (rest.takeWhile Char.isDigit, rest2) else none
      else none

/-- A quoted free group `\"([^\"]*)\"`: the opening quote, any characters
other than a double quote, the closing quote. -/
def grpFree : List Char → Option (List Char × List Char)
  | [] => none
  | c :: rest =>
      if c = '"' then
        match rest.dropWhile (fun x => x != '"') with
        | [] => none
        | d :: rest2 =>
            if d = '"' then some (rest.takeWhile (fun x => x != '"'), rest2) else none
      else none

/-- A quoted nonempty free group `\"([^\"]+)\"`. -/
def grpFree1 : List Char → Option (List Char × List Char)
  | [] => none
  | c :: rest =>
      if c = '"' then
        if (rest.takeWhile (fun x => x != '"')).isEmpty then none
        else
          match rest.dropWhile (fun x => x != '"') with
          | [] => none
          | d :: rest2 =>
              if d = '"' then some (rest.takeWhile (fun x => x != '"'), rest2) else none
      else none

/-- A quoted group followed by the separating comma `,`. -/
def grpComma (grp : List Char → Option (List Char × List Char))
    (s : List Char) : Option (List Char × List Char) :=
  match grp s with
  | none => none
  | some (tok, rest) =>
      match rest with
      | [] => none
      | c :: r => if c = ',' then some (tok, r) else none

/-- Run a sequence of quoted-group parsers separated by commas (no comma
after the last group), collecting the captured tokens in order. -/
def parseSeq : List (List Char → Option (List Char × List Char)) → List Char →
    Option (List (List Char))
  | [], _ => some []
  | [g], s => (g s).map (fun p => [p.1])
  | g :: g2 :: gs, s =>
      (grpComma g s).bind (fun p => (parseSeq (g2 :: gs) p.2).map (p.1 :: ·))

/-- The 16 group parsers of the data line, in capture order: `\d+` for
`eintrags_id` and `anzahl_personen`, `[^"]+` for `key`, `name`, `vorname`
and `mail`, `[^"]*` for the remaining groups. -/
def dataLineGroups : List (List Char → Option (List Char × List Char)) :=
  [grpDigits, grpFree1, grpDigits, grpFree, grpFree1, grpFree1, grpFree1,
    grpFree, grpFree, grpFree, grpFree, grpFree, grpFree, grpFree, grpFree,
    grpFree]

/-- Assemble the group dictionary from the 16 captured tokens. -/
def toGroupdict : List (List Char) → Option Groupdict
  | [g1, g2, g3, g4, g5, g6, g7, g8, g9, g10, g11, g12, g13, g14, g15, g16] =>
      some
        { eintrags_id := String.mk g1
          key := String.mk g2
          anzahl_personen := String.mk g3
          zahlungsstatus := String.mk g4
          name := String.mk g5
          vorname := String.mk g6
          mail := String.mk g7
          telefon := String.mk g8
          sonstiges := String.mk g9
          club := String.mk g10
          teilnehmer_2 := String.mk g11
          teilnehmer_3 := String.mk g12
          teilnehmer_4 := String.mk g13
          teilnehmer_5 := String.mk g14
          teilnehmer_6 := String.mk g15
          teilnehmer_7 := String.mk g16 }
  | _ => none

/-- The data line of `EXTRACTION_REGEXP`: the 16 quoted capture groups in
order, separated by commas, with no comma after `teilnehmer_7`. -/
def parseDataLine (s : List Char) : Option Groupdict :=
  (parseSeq dataLineGroups s).bind toGroupdict

/-- The fixed CSV header line inside the message body, including its
trailing comma and the `\n` that precedes the data line. -/
def bodyHeaderLine : String :=
  "\"eintrags_id\",\"key\",\"anzahl_personen\",\"zahlungsstatus\","
    ++ "\"name\",\"vorname\",\"mail\",\"telefon\",\"sonstiges\","
    ++ "\"club\",\"teilnehmer_2\",\"teilnehmer_3\",\"teilnehmer_4\","
    ++ "\"teilnehmer_5\",\"teilnehmer_6\",\"teilnehmer_7\",\n"

/-- Attempt to match `EXTRACTION_REGEXP` at the start of `s`. -/
def matchAt (s : List Char) : Option Groupdict :=
  (dropLit "X-Mailer: WPMailSMTP/Mailer/smtp ".toList s).bind (fun s1 =>
  (matchVer3 s1).bind (fun s2 =>
  (dropLit "\nMIME-Version: ".toList s2).bind (fun s3 =>
  (matchVer2 s3).bind (fun s4 =>
  (dropLit "\nContent-Type: text/plain; charset=UTF-8".toList s4).bind (fun s5 =>
  (dropLit "\n\n".toList (skipOptionalCte s5)).bind (fun s6 =>
  (dropLit bodyHeaderLine.toList s6).bind (fun s7 =>
  parseDataLine s7)))))))

/-- `EXTRACTION_REGEXP.search` on a character list: try to match at every
position from the left, returning the first (leftmost) match. -/
def searchGroups : List Char → Option Groupdict
  | [] => none
  | c :: rest =>
      match matchAt (c :: rest) with
      | some g => some g
      | none => searchGroups rest

/-- `EXTRACTION_REGEXP.search(str(msg))` as used on a message's text. -/
def extractionSearch (s : String) : Option Groupdict :=
  searchGroups s.toList

/-! ## Registration records -/

/-- `RegistrationData`: the extracted data of one registration e-mail. -/
structure RegistrationData where
  eintrags_id : String
  key : String
  anzahl_personen : String
  zahlungsstatus : String
  name : String
  vorname : String
  mail : String
  telefon : String
  sonstiges : String
  club : String
  teilnehmer_2 : String
  teilnehmer_3 : String
  teilnehmer_4 : String
  teilnehmer_5 : String
  teilnehmer_6 : String
  teilnehmer_7 : String
  deriving DecidableEq, Repr

/-- `RegistrationData.__init__`: each attribute is read from the group
dictionary under its own name. -/
def RegistrationData.ofGroupdict (data : Groupdict) : RegistrationData where
  eintrags_id := data.eintrags_id
  key := data.key
  anzahl_personen := data.anzahl_personen
  zahlungsstatus := data.zahlungsstatus
  name := data.name
  vorname := data.vorname
  mail := data.mail
  telefon := data.telefon
  sonstiges := data.sonstiges
  club := data.club
  teilnehmer_2 := data.teilnehmer_2
  teilnehmer_3 := data.teilnehmer_3
  teilnehmer_4 := data.teilnehmer_4
  teilnehmer_5 := data.teilnehmer_5
  teilnehmer_6 := data.teilnehmer_6
  teilnehmer_7 := data.teilnehmer_7

/-- The header row written by `RegistrationData.write_header_to_csv`. -/
def headerFields : List String :=
  ["eintrags_id", "key", "anzahl_personen", "zahlungsstatus",
    "name", "vorname", "mail", "telefon", "sonstiges", "club",
    "teilnehmer_2", "teilnehmer_3", "teilnehmer_4",
    "teilnehmer_5", "teilnehmer_6", "teilnehmer_7"]

/-- The row written by `RegistrationData.write_to_csv`, in source order. -/
def recordFields (r : RegistrationData) : List String :=
  [r.eintrags_id, r.key, r.anzahl_personen, r.zahlungsstatus, r.name,
    r.vorname, r.mail, r.telefon, r.sonstiges, r.club, r.teilnehmer_2,
    r.teilnehmer_3, r.teilnehmer_4, r.teilnehmer_5, r.teilnehmer_6,
    r.teilnehmer_7]

/-- The 16 named capture groups of a group dictionary, in the same order. -/
def groupdictFields (g : Groupdict) : List String :=
  [g.eintrags_id, g.key, g.anzahl_personen, g.zahlungsstatus, g.name,
    g.vorname, g.mail, g.telefon, g.sonstiges, g.club, g.teilnehmer_2,
    g.teilnehmer_3, g.teilnehmer_4, g.teilnehmer_5, g.teilnehmer_6,
    g.teilnehmer_7]

/-! ## The retrieval loop -/

/-- The value Python's `format` prints for a header lookup: the header
string itself, or `None` when the header is absent. -/
def headerShown : Option String → String
  | some s => s
  | none => "None"

/-- The notice printed for a skipped message:
`Skipping e-mail from "<env-from>" to "<env-to>"`. -/
def skipNotice (m : Msg) : String :=
  "Skipping e-mail from \"" ++ headerShown m.xEnvelopeFrom
    ++ "\" to \"" ++ headerShown m.xEnvelopeTo ++ "\""

/-- Outcome of `retrieve_registrations_from_server` on a mailbox: either
the collected registrations together with the printed skip notices, or a
crash (the `AttributeError` from `res.groupdict()` when
`EXTRACTION_REGEXP.search` returned `None`) together with the notices
printed before the crash. -/
inductive RunResult where
  | ok (regs : List RegistrationData) (notices : List String)
  | crash (notices : List String)
  deriving DecidableEq, Repr

/-- The message loop of `retrieve_registrations_from_server`, processing
the fetched messages in server order: a message failing the header check
is skipped with a printed notice; otherwise the extraction regular
expression is searched in the message text, and an absent match crashes
the run. -/
def runRetrieve : List Msg → RunResult
  | [] => .ok [] []
  | m :: rest =>
      if check_if_message_to_skip m then
        match runRetrieve rest with
        | .ok regs notices => .ok regs (skipNotice m :: notices)
        | .crash notices => .crash (skipNotice m :: notices)
      else
        match extractionSearch m.text with
        | none => .crash []
        | some res =>
            match runRetrieve rest with
            | .ok regs notices => .ok (RegistrationData.ofGroupdict res :: regs) notices
            | .crash notices => .crash notices

/-! ## CSV output (`csv.writer`, excel dialect, minimal quoting) -/

/-- A field must be quoted when it contains the delimiter, the quote
character, or a line-terminator character. -/
def needsQuoting (f : List Char) : Bool :=
  f.any (fun c => c = ',' || c = '"' || c = '\r' || c = '\n')

/-- Double every quote character (`doublequote=True`). -/
def escapeQuotes : List Char → List Char
  | [] => []
  | c :: r => (if c = '"' then ['"', '"'] else [c]) ++ escapeQuotes r

/-- Serialize one field with minimal quoting.  `single` marks the only
field of a one-field row, which is quoted even when empty (so that the
row is not mistaken for an empty row). -/
def writeField (single : Bool) (f : List Char) : List Char :=
  if needsQuoting f || (single && f.isEmpty) then
    '"' :: (escapeQuotes f ++ ['"'])
  else f

/-- Join serialized fields with the `,` delimiter. -/
def joinComma : List (List Char) → List Char
  | [] => []
  | [f] => f
  | f :: g :: rest => f ++ ',' :: joinComma (g :: rest)

/-- Serialize one row, terminated by `\r\n` (the writer's default). -/
def writeRow (fs : List (List Char)) : List Char :=
  joinComma (fs.map (writeField (fs.length == 1))) ++ ['\r', '\n']

/-- Concatenate serialized rows into the file contents. -/
def concatRows : List (List Char) → List Char
  | [] => []
  | r :: rs => r ++ concatRows rs

/-- `write_registrations_to_csv`: the header row, then one row per
registration in list order. -/
def writeCsvFile (registrations : List RegistrationData) : List Char :=
  writeRow (headerFields.map String.toList)
    ++ concatRows (registrations.map (fun r => writeRow ((recordFields r).map String.toList)))

/-- `main`: retrieve the registrations, then (only on success) create and
write the CSV file.  The result is the file contents, or `none` when the
run aborted before `write_registrations_to_csv` was reached. -/
def mainRun (msgs : List Msg) : Option (List Char) :=
  match runRetrieve msgs with
  | .ok regs _ => some (writeCsvFile regs)
  | .crash _ => none

/-! ## A standard CSV reader

Modelled from the spec: the round-trip property reads the output file
back with "a standard CSV reader", which is not part of this repository;
the reader below implements the standard rules (fields separated by `,`,
rows terminated by a line break, a field starting with `"` is quoted,
inside quotes `""` denotes one quote and delimiters and line breaks are
literal). -/

/-- Read the remainder of a quoted field (after the opening quote):
returns the field text and the input following the closing quote. -/
def readQuoted : List Char → Option (List Char × List Char)
  | [] => none
  | c :: rest =>
      if c = '"' then
        match rest with
        | [] => some ([], [])
        | d :: rest2 =>
            if d = '"' then (readQuoted rest2).map (fun p => ('"' :: p.1, p.2))
            else some ([], d :: rest2)
      else (readQuoted rest).map (fun p => (c :: p.1, p.2))

/-- True for the characters that end an unquoted field. -/
def csvSep (c : Char) : Bool :=
  c = ',' || c = '\r' || c = '\n'

/-- Read one field: quoted when it starts with `"`, otherwise everything
up to the next delimiter or line break. -/
def readFieldCsv : List Char → Option (List Char × List Char)
  | [] => some ([], [])
  | c :: rest =>
      if c = '"' then readQuoted rest
      else
        some ((c :: rest).takeWhile (fun x => !csvSep x),
          (c :: rest).dropWhile (fun x => !csvSep x))

/-- Read the fields of one row, consuming the terminating line break;
`fuel` bounds the number of fields. -/
def readRowCsv : Nat → List Char → Option (List (List Char) × List Char)
  | 0, _ => none
  | fuel + 1, s =>
      match readFieldCsv s with
      | none => none
      | some (f, rest) =>
          match rest with
          | [] => some ([f], [])
          | c :: rest2 =>
              if c = ',' then (readRowCsv fuel rest2).map (fun p => (f :: p.1, p.2))
              else if c = '\r' then
                match rest2 with
                | [] => none
                | d :: rest3 => if d = '\n' then some ([f], rest3) else none
              else if c = '\n' then some ([f], rest2)
              else none

/-- Read all rows; `fuel` bounds the number of rows. -/
def readRowsCsv : Nat → List Char → Option (List (List (List Char)))
  | _, [] => some []
  | 0, _ :: _ => none
  | fuel + 1, c :: rest =>
      match readRowCsv (c :: rest).length.succ (c :: rest) with
      | none => none
      | some (row, rem) => (readRowsCsv fuel rem).map (row :: ·)

/-- Read a whole CSV file into its rows of fields. -/
def readCsv (s : List Char) : Option (List (List (List Char))) :=
  readRowsCsv s.length s

/-! ## Character-class predicates -/

/-- All characters of a string are decimal digits. -/
def digitsOnly (s : String) : Bool :=
  s.toList.all Char.isDigit

/-- No character of a string is a double quote. -/
def quoteFree (s : String) : Bool :=
  s.toList.all (fun c => c != '"')

/-- `needle` occurs as a prefix of some suffix of the haystack. -/
def subsearch (needle : List Char) : List Char → Bool
  | [] => needle.isEmpty
  | c :: t => needle.isPrefixOf (c :: t) || subsearch needle t

/-- `needle` occurs as a contiguous substring of `hay`. -/
def strContains (hay needle : String) : Bool :=
  subsearch needle.toList hay.toList

/-! ## Soundness of the capture-group parsers -/

lemma all_takeWhile (p : Char → Bool) (l : List Char) :
    (l.takeWhile p).all p = true := by
  induction l with
  | nil => rfl
  | cons c t ih =>
    by_cases h : p c <;> simp [List.takeWhile_cons, h, ih]

lemma grpDigits_tok {s tok r} (h : grpDigits s = some (tok, r)) :
    tok.all Char.isDigit = true ∧ tok ≠ [] := by
  cases s with
  | nil => simp [grpDigits] at h
  | cons c rest =>
    simp only [grpDigits] at h
    split at h
    · split at h
      · simp at h
      · rename_i hne
        split at h
        · simp at h
        · split at h
          · simp only [Option.some.injEq, Prod.mk.injEq] at h
            obtain ⟨rfl, rfl⟩ := h
            refine ⟨all_takeWhile Char.isDigit rest, ?_⟩
            intro h0
            rw [h0] at hne
            exact hne rfl
          · simp at h
    · simp at h

lemma grpFree_tok {s tok r} (h : grpFree s = some (tok, r)) :
    tok.all (fun c => c != '"') = true := by
  cases s with
  | nil => simp [grpFree] at h
  | cons c rest =>
    simp only [grpFree] at h
    split at h
    · split at h
      · simp at h
      · split at h
        · simp only [Option.some.injEq, Prod.mk.injEq] at h
          obtain ⟨rfl, rfl⟩ := h
          exact all_takeWhile (fun x => x != '\"') rest
        · simp at h
    · simp at h

lemma grpFree1_tok {s tok r} (h : grpFree1 s = some (tok, r)) :
    tok.all (fun c => c != '"') = true := by
  cases s with
  | nil => simp [grpFree1] at h
  | cons c rest =>
    simp only [grpFree1] at h
    split at h
    · split at h
      · simp at h
      · split at h
        · simp at h
        · split at h
          · simp only [Option.some.injEq, Prod.mk.injEq] at h
            obtain ⟨rfl, rfl⟩ := h
            exact all_takeWhile (fun x => x != '\"') rest
          · simp at h
    · simp at h

lemma grpComma_some {g s tok r} (h : grpComma g s = some (tok, r)) :
    ∃ rest, g s = some (tok, rest) := by
  simp only [grpComma] at h
  split at h
  · simp at h
  · rename_i p hp
    split at h
    · simp at h
    · split at h
      · simp only [Option.some.injEq, Prod.mk.injEq] at h
        obtain ⟨rfl, rfl⟩ := h
        exact ⟨_, hp⟩
      · simp at h

/-- A token produced by one of the group parsers on some input. -/
def TokenOf (g : List Char → Option (List Char × List Char))
    (tok : List Char) : Prop :=
  ∃ s r, g s = some (tok, r)

lemma parseSeq_sound :
    ∀ (gs : List (List Char → Option (List Char × List Char)))
      (s : List Char) (toks : List (List Char)),
      parseSeq gs s = some toks → List.Forall₂ TokenOf gs toks := by
  intro gs
  induction gs with
  | nil =>
    intro s toks h
    have h0 : ([] : List (List Char)) = toks := Option.some.inj h
    rw [← h0]
    exact List.Forall₂.nil
  | cons g gs ih =>
    intro s toks h
    cases gs with
    | nil =>
      simp only [parseSeq] at h
      cases hg : g s with
      | none => rw [hg] at h; simp at h
      | some p =>
        rw [hg] at h
        simp only [Option.map_some', Option.some.injEq] at h
        rw [← h]
        exact List.Forall₂.cons ⟨s, p.2, by rw [hg]⟩ List.Forall₂.nil
    | cons g2 gs2 =>
      simp only [parseSeq] at h
      cases hg : grpComma g s with
      | none => rw [hg] at h; simp at h
      | some p =>
        rw [hg] at h
        simp only [Option.some_bind] at h
        cases hps : parseSeq (g2 :: gs2) p.2 with
        | none => rw [hps] at h; simp at h
        | some toks2 =>
          rw [hps] at h
          simp only [Option.map_some', Option.some.injEq] at h
          rw [← h]
          obtain ⟨rest, hgs⟩ := grpComma_some hg
          exact List.Forall₂.cons ⟨s, rest, hgs⟩ (ih p.2 toks2 hps)

lemma matchAt_parts {s : List Char} {g : Groupdict} (h : matchAt s = some g) :
    ∃ t toks, parseSeq dataLineGroups t = some toks ∧ toGroupdict toks = some g := by
  simp only [matchAt, Option.bind_eq_some] at h
  obtain ⟨s1, -, s2, -, s3, -, s4, -, s5, -, s6, -, s7, -, hp⟩ := h
  simp only [parseDataLine, Option.bind_eq_some] at hp
  obtain ⟨toks, h1, h2⟩ := hp
  exact ⟨s7, toks, h1, h2⟩

lemma searchGroups_matchAt {s : List Char} {g : Groupdict}
    (h : searchGroups s = some g) : ∃ t, matchAt t = some g := by
  induction s with
  | nil => simp [searchGroups] at h
  | cons c rest ih =>
    simp only [searchGroups] at h
    cases hm : matchAt (c :: rest) with
    | some g2 =>
      rw [hm] at h
      exact ⟨c :: rest, hm.trans h⟩
    | none =>
      rw [hm] at h
      exact ih h

lemma isDigit_ne_quote {c : Char} (h : c.isDigit = true) : (c != '"') = true := by
  rcases eq_or_ne c '"' with rfl | hne
  · exact absurd h (by decide)
  · simpa using hne

lemma all_digits_quoteFree {t : List Char} (h : t.all Char.isDigit = true) :
    t.all (fun c => c != '"') = true :=
  List.all_eq_true.mpr fun a ha =>
    isDigit_ne_quote (List.all_eq_true.mp h a ha)

/-- Every group dictionary that `matchAt` can return satisfies its
character classes: `eintrags_id` and `anzahl_personen` are (nonempty)
digit strings, and no field contains a double quote. -/
lemma matchAt_props {s : List Char} {g : Groupdict} (h : matchAt s = some g) :
    digitsOnly g.eintrags_id = true ∧ digitsOnly g.anzahl_personen = true ∧
      (groupdictFields g).all quoteFree = true := by
  obtain ⟨t, toks, hseq, hg⟩ := matchAt_parts h
  have hf := parseSeq_sound _ _ _ hseq
  rw [dataLineGroups] at hf
  obtain ⟨t1, u1, hr1, hf1, rfl⟩ := List.forall₂_cons_left_iff.mp hf
  obtain ⟨t2, u2, hr2, hf2, rfl⟩ := List.forall₂_cons_left_iff.mp hf1
  obtain ⟨t3, u3, hr3, hf3, rfl⟩ := List.forall₂_cons_left_iff.mp hf2
  obtain ⟨t4, u4, hr4, hf4, rfl⟩ := List.forall₂_cons_left_iff.mp hf3
  obtain ⟨t5, u5, hr5, hf5, rfl⟩ := List.forall₂_cons_left_iff.mp hf4
  obtain ⟨t6, u6, hr6, hf6, rfl⟩ := List.forall₂_cons_left_iff.mp hf5
  obtain ⟨t7, u7, hr7, hf7, rfl⟩ := List.forall₂_cons_left_iff.mp hf6
  obtain ⟨t8, u8, hr8, hf8, rfl⟩ := List.forall₂_cons_left_iff.mp hf7
  obtain ⟨t9, u9, hr9, hf9, rfl⟩ := List.forall₂_cons_left_iff.mp hf8
  obtain ⟨t10, u10, hr10, hf10, rfl⟩ := List.forall₂_cons_left_iff.mp hf9
  obtain ⟨t11, u11, hr11, hf11, rfl⟩ := List.forall₂_cons_left_iff.mp hf10
  obtain ⟨t12, u12, hr12, hf12, rfl⟩ := List.forall₂_cons_left_iff.mp hf11
  obtain ⟨t13, u13, hr13, hf13, rfl⟩ := List.forall₂_cons_left_iff.mp hf12
  obtain ⟨t14, u14, hr14, hf14, rfl⟩ := List.forall₂_cons_left_iff.mp hf13
  obtain ⟨t15, u15, hr15, hf15, rfl⟩ := List.forall₂_cons_left_iff.mp hf14
  obtain ⟨t16, u16, hr16, hf16, rfl⟩ := List.forall₂_cons_left_iff.mp hf15
  obtain rfl := List.forall₂_nil_left_iff.mp hf16
  simp only [toGroupdict, Option.some.injEq] at hg
  obtain ⟨d1, -⟩ := grpDigits_tok (hr1.choose_spec.choose_spec)
  obtain ⟨d3, -⟩ := grpDigits_tok (hr3.choose_spec.choose_spec)
  have q2 := grpFree1_tok (hr2.choose_spec.choose_spec)
  have q4 := grpFree_tok (hr4.choose_spec.choose_spec)
  have q5 := grpFree1_tok (hr5.choose_spec.choose_spec)
  have q6 := grpFree1_tok (hr6.choose_spec.choose_spec)
  have q7 := grpFree1_tok (hr7.choose_spec.choose_spec)
  have q8 := grpFree_tok (hr8.choose_spec.choose_spec)
  have q9 := grpFree_tok (hr9.choose_spec.choose_spec)
  have q10 := grpFree_tok (hr10.choose_spec.choose_spec)
  have q11 := grpFree_tok (hr11.choose_spec.choose_spec)
  have q12 := grpFree_tok (hr12.choose_spec.choose_spec)
  have q13 := grpFree_tok (hr13.choose_spec.choose_spec)
  have q14 := grpFree_tok (hr14.choose_spec.choose_spec)
  have q15 := grpFree_tok (hr15.choose_spec.choose_spec)
  have q16 := grpFree_tok (hr16.choose_spec.choose_spec)
  subst hg
  refine ⟨d1, d3, ?_⟩
  simp only [groupdictFields, quoteFree, List.all_cons, List.all_nil,
    Bool.and_eq_true, and_true]
  exact ⟨all_digits_quoteFree d1, q2, all_digits_quoteFree d3, q4, q5, q6,
    q7, q8, q9, q10, q11, q12, q13, q14, q15, q16⟩

/-! ## Structure of the retrieval loop -/

lemma check_iff (m : Msg) : check_if_message_to_skip m = true ↔
    m.xEnvelopeFrom ≠ some expectedEnvelopeFrom
      ∨ m.xEnvelopeTo ≠ some expectedEnvelopeTo
      ∨ m.fromHeader ≠ some expectedFrom
      ∨ m.toHeader ≠ some expectedTo := by
  simp [check_if_message_to_skip, bne_iff_ne, or_assoc]

lemma runRetrieve_count : ∀ {msgs regs notices},
    runRetrieve msgs = .ok regs notices →
    regs.length + notices.length = msgs.length := by
  intro msgs
  induction msgs with
  | nil =>
    intro regs notices h
    have h0 : RunResult.ok ([] : List RegistrationData) [] = .ok regs notices := h
    cases h0
    rfl
  | cons m rest ih =>
    intro regs notices h
    simp only [runRetrieve] at h
    split at h
    · split at h
      · rename_i regs2 notices2 hrest
        cases h
        have := ih hrest
        simp only [List.length_cons]
        omega
      · exact RunResult.noConfusion h
    · split at h
      · exact RunResult.noConfusion h
      · split at h
        · rename_i regs2 notices2 hrest
          cases h
          have := ih hrest
          simp only [List.length_cons]
          omega
        · exact RunResult.noConfusion h

lemma runRetrieve_ok_records : ∀ {msgs regs notices},
    runRetrieve msgs = .ok regs notices →
    regs = msgs.filterMap (fun m =>
      if check_if_message_to_skip m then none
      else (extractionSearch m.text).map RegistrationData.ofGroupdict) := by
  intro msgs
  induction msgs with
  | nil =>
    intro regs notices h
    have h0 : RunResult.ok ([] : List RegistrationData) [] = .ok regs notices := h
    cases h0
    rfl
  | cons m rest ih =>
    intro regs notices h
    simp only [runRetrieve] at h
    split at h
    · rename_i hc
      split at h
      · rename_i regs2 notices2 hrest
        cases h
        rw [List.filterMap_cons, if_pos hc]
        exact ih hrest
      · exact RunResult.noConfusion h
    · rename_i hc
      split at h
      · exact RunResult.noConfusion h
      · rename_i g hsearch
        split at h
        · rename_i regs2 notices2 hrest
          cases h
          rw [List.filterMap_cons, if_neg hc, hsearch, Option.map_some']
          rw [ih hrest]
        · exact RunResult.noConfusion h

lemma runRetrieve_ok_mem : ∀ {msgs regs notices},
    runRetrieve msgs = .ok regs notices →
    ∀ r ∈ regs, ∃ m g, m ∈ msgs ∧ check_if_message_to_skip m = false
      ∧ extractionSearch m.text = some g
      ∧ r = RegistrationData.ofGroupdict g := by
  intro msgs
  induction msgs with
  | nil =>
    intro regs notices h
    have h0 : RunResult.ok ([] : List RegistrationData) [] = .ok regs notices := h
    cases h0
    intro r hr
    exact absurd hr (List.not_mem_nil r)
  | cons m rest ih =>
    intro regs notices h
    simp only [runRetrieve] at h
    split at h
    · split at h
      · rename_i regs2 notices2 hrest
        cases h
        intro r hr
        obtain ⟨m2, g, hm2, hc2, hs2, hr2⟩ := ih hrest r hr
        exact ⟨m2, g, List.mem_cons_of_mem m hm2, hc2, hs2, hr2⟩
      · exact RunResult.noConfusion h
    · rename_i hc
      split at h
      · exact RunResult.noConfusion h
      · rename_i g hsearch
        split at h
        · rename_i regs2 notices2 hrest
          cases h
          intro r hr
          rcases List.mem_cons.mp hr with rfl | hr2
          · exact ⟨m, g, List.mem_cons_self m rest,
              Bool.eq_false_iff.mpr hc, hsearch, rfl⟩
          · obtain ⟨m2, g2, hm2, hc2, hs2, hr2⟩ := ih hrest r hr2
            exact ⟨m2, g2, List.mem_cons_of_mem m hm2, hc2, hs2, hr2⟩
        · exact RunResult.noConfusion h

/-! ## CSV round trip -/

/-- The continuation after a serialized field: end of input, a comma, or
the `\r` of the row terminator. -/
def sepStart (rest : List Char) : Prop :=
  rest = [] ∨ (∃ r, rest = ',' :: r) ∨ (∃ r, rest = '\r' :: r)

lemma readQuoted_escape : ∀ (f rest : List Char),
    (∀ d, rest.head? = some d → d ≠ '"') →
    readQuoted (escapeQuotes f ++ '"' :: rest) = some (f, rest) := by
  intro f
  induction f with
  | nil =>
    intro rest hrest
    show readQuoted ('"' :: rest) = some ([], rest)
    cases rest with
    | nil => rfl
    | cons d r2 =>
      have hd : d ≠ '"' := hrest d rfl
      simp [readQuoted, hd]
  | cons c f ih =>
    intro rest hrest
    by_cases hc : c = '"'
    · subst hc
      have he : escapeQuotes ('"' :: f) = '"' :: '"' :: escapeQuotes f := by
        simp [escapeQuotes]
      rw [he, List.cons_append, List.cons_append]
      simp [readQuoted, ih rest hrest]
    · have he : escapeQuotes (c :: f) = c :: escapeQuotes f := by
        simp [escapeQuotes, hc]
      rw [he, List.cons_append]
      cases hecs : escapeQuotes f ++ '"' :: rest with
      | nil => exact absurd hecs (by simp)
      | cons e t =>
        have hred : readQuoted (c :: e :: t)
            = (readQuoted (e :: t)).map (fun p => (c :: p.1, p.2)) := by
          simp [readQuoted, hc]
        rw [hred, ← hecs, ih rest hrest]
        rfl

lemma takeWhile_append_all (p : Char → Bool) : ∀ (f rest : List Char),
    f.all p = true → (∀ d, rest.head? = some d → p d = false) →
    (f ++ rest).takeWhile p = f ∧ (f ++ rest).dropWhile p = rest := by
  intro f
  induction f with
  | nil =>
    intro rest _ hr
    cases rest with
    | nil => exact ⟨rfl, rfl⟩
    | cons d r2 =>
      exact ⟨by simp [List.takeWhile_cons, hr d rfl],
        by simp [List.dropWhile_cons, hr d rfl]⟩
  | cons c f ih =>
    intro rest hf hr
    simp only [List.all_cons, Bool.and_eq_true] at hf
    obtain ⟨hc, hf⟩ := hf
    obtain ⟨ht, hd⟩ := ih rest hf hr
    exact ⟨by simp [List.takeWhile_cons, hc, ht],
      by simp [List.dropWhile_cons, hc, hd]⟩

lemma needsQuoting_false_facts : ∀ {f : List Char}, needsQuoting f = false →
    f.all (fun c => !csvSep c) = true ∧ ∀ c ∈ f, c ≠ '"' := by
  intro f h
  induction f with
  | nil => exact ⟨rfl, by simp⟩
  | cons c t ih =>
    simp only [needsQuoting, List.any_cons, Bool.or_eq_false_iff] at h
    obtain ⟨hc, ht⟩ := h
    obtain ⟨iht, ihq⟩ := ih ht
    simp only [Bool.or_eq_false_iff, decide_eq_false_iff_not] at hc
    obtain ⟨⟨⟨h1, h2⟩, h3⟩, h4⟩ := hc
    refine ⟨?_, ?_⟩
    · simp only [List.all_cons, Bool.and_eq_true]
      exact ⟨by simp [csvSep, h1, h3, h4], iht⟩
    · intro d hd
      rcases List.mem_cons.mp hd with rfl | hd2
      · exact h2
      · exact ihq d hd2

lemma sepStart_not_sep {rest : List Char} (h : sepStart rest) :
    ∀ d, rest.head? = some d → (!csvSep d) = false := by
  intro d hd
  rcases h with rfl | ⟨r, rfl⟩ | ⟨r, rfl⟩
  · simp at hd
  · simp only [List.head?_cons, Option.some.injEq] at hd
    subst hd
    decide
  · simp only [List.head?_cons, Option.some.injEq] at hd
    subst hd
    decide

lemma sepStart_not_quote {rest : List Char} (h : sepStart rest) :
    ∀ d, rest.head? = some d → d ≠ '"' := by
  intro d hd
  rcases h with rfl | ⟨r, rfl⟩ | ⟨r, rfl⟩
  · simp at hd
  · simp only [List.head?_cons, Option.some.injEq] at hd
    subst hd
    decide
  · simp only [List.head?_cons, Option.some.injEq] at hd
    subst hd
    decide

lemma readField_roundtrip (single : Bool) (f rest : List Char)
    (h : sepStart rest) :
    readFieldCsv (writeField single f ++ rest) = some (f, rest) := by
  by_cases hq : (needsQuoting f || (single && f.isEmpty)) = true
  · simp only [writeField, if_pos hq, List.cons_append, List.append_assoc,
      List.singleton_append]
    simp only [readFieldCsv, if_pos rfl]
    exact readQuoted_escape f rest (sepStart_not_quote h)
  · simp only [writeField, if_neg hq]
    rw [Bool.or_eq_true] at hq
    push_neg at hq
    have hnq : needsQuoting f = false := Bool.eq_false_iff.mpr hq.1
    obtain ⟨hall, hquote⟩ := needsQuoting_false_facts hnq
    obtain ⟨htake, hdrop⟩ :=
      takeWhile_append_all (fun c => !csvSep c) f rest hall (sepStart_not_sep h)
    cases hfr : f ++ rest with
    | nil =>
      rcases List.append_eq_nil.mp hfr with ⟨rfl, rfl⟩
      rfl
    | cons c t =>
      have hcq : c ≠ '"' := by
        cases f with
        | nil =>
          simp only [List.nil_append] at hfr
          exact sepStart_not_quote h c (by rw [hfr]; rfl)
        | cons c0 f0 =>
          simp only [List.cons_append, List.cons.injEq] at hfr
          rw [← hfr.1]
          exact hquote c0 (List.mem_cons_self c0 f0)
      simp only [readFieldCsv, if_neg hcq]
      rw [← hfr, htake, hdrop]

lemma readRowCsv_term {s : List Char} {f rest : List Char} (fuel : Nat)
    (h : readFieldCsv s = some (f, '\r' :: '\n' :: rest)) :
    readRowCsv (fuel + 1) s = some ([f], rest) := by
  unfold readRowCsv
  rw [h]
  rfl

lemma readRowCsv_comma {s : List Char} {f rest2 : List Char} (fuel : Nat)
    (h : readFieldCsv s = some (f, ',' :: rest2)) :
    readRowCsv (fuel + 1) s
      = (readRowCsv fuel rest2).map (fun p => (f :: p.1, p.2)) := by
  conv_lhs => unfold readRowCsv
  rw [h]
  rfl

lemma readRow_core (b : Bool) : ∀ (fs : List (List Char)) (fuel : Nat)
    (rest : List Char), fs ≠ [] → fs.length ≤ fuel →
    readRowCsv fuel (joinComma (fs.map (writeField b)) ++ '\r' :: '\n' :: rest)
      = some (fs, rest) := by
  intro fs
  induction fs with
  | nil => intro fuel rest h _; exact absurd rfl h
  | cons f fs ih =>
    intro fuel rest _ hlen
    cases fs with
    | nil =>
      cases fuel with
      | zero => simp at hlen
      | succ fuel =>
        simp only [List.map_cons, List.map_nil, joinComma]
        exact readRowCsv_term fuel (readField_roundtrip b f ('\r' :: '\n' :: rest)
          (Or.inr (Or.inr ⟨'\n' :: rest, rfl⟩)))
    | cons f2 fs2 =>
      cases fuel with
      | zero => simp at hlen
      | succ fuel =>
        simp only [List.map_cons, joinComma, List.append_assoc,
          List.cons_append]
        rw [readRowCsv_comma fuel (readField_roundtrip b f
          (',' :: (joinComma (writeField b f2 :: fs2.map (writeField b))
            ++ '\r' :: '\n' :: rest)) (Or.inr (Or.inl ⟨_, rfl⟩)))]
        have hih := ih fuel rest (by simp)
          (by simpa using Nat.le_of_succ_le_succ hlen)
        simp only [List.map_cons] at hih
        rw [hih]
        rfl

lemma writeRow_eq (fs : List (List Char)) :
    writeRow fs = joinComma (fs.map (writeField (fs.length == 1)))
      ++ ['\r', '\n'] := rfl

lemma readRow_writeRow (fs : List (List Char)) (fuel : Nat)
    (rest : List Char) (hne : fs ≠ []) (hlen : fs.length ≤ fuel) :
    readRowCsv fuel (writeRow fs ++ rest) = some (fs, rest) := by
  rw [writeRow_eq, List.append_assoc]
  exact readRow_core (fs.length == 1) fs fuel rest hne hlen

lemma joinComma_length : ∀ (fss : List (List Char)),
    fss.length ≤ (joinComma fss).length + 1 := by
  intro fss
  induction fss with
  | nil => simp [joinComma]
  | cons f fss ih =>
    cases fss with
    | nil => simp [joinComma]
    | cons g fss2 =>
      simp only [joinComma, List.length_append, List.length_cons] at ih ⊢
      omega

lemma writeRow_length (fs : List (List Char)) :
    fs.length ≤ (writeRow fs).length := by
  rw [writeRow_eq]
  have h := joinComma_length (fs.map (writeField (fs.length == 1)))
  simp only [List.length_map] at h
  simp only [List.length_append]
  simp only [List.length_cons, List.length_nil]
  omega

lemma writeRow_ne_nil (fs : List (List Char)) : writeRow fs ≠ [] := by
  rw [writeRow_eq]
  simp

lemma readRows_roundtrip : ∀ (rows : List (List (List Char))) (fuel : Nat),
    (∀ r ∈ rows, r ≠ []) → rows.length ≤ fuel →
    readRowsCsv fuel (concatRows (rows.map writeRow)) = some rows := by
  intro rows
  induction rows with
  | nil =>
    intro fuel _ _
    cases fuel <;> rfl
  | cons r rows ih =>
    intro fuel hne hlen
    cases fuel with
    | zero => simp at hlen
    | succ fuel =>
      simp only [List.map_cons, concatRows]
      obtain ⟨c, t, hct⟩ :
          ∃ c t, writeRow r ++ concatRows (rows.map writeRow) = c :: t := by
        cases hw : writeRow r with
        | nil => exact absurd hw (writeRow_ne_nil r)
        | cons c t =>
          exact ⟨c, t ++ concatRows (rows.map writeRow), rfl⟩
      rw [hct]
      simp only [readRowsCsv]
      rw [← hct]
      have hbound : r.length ≤ (writeRow r ++ concatRows (rows.map writeRow)).length + 1 := by
        have h1 := writeRow_length r
        simp only [List.length_append]
        omega
      rw [readRow_writeRow r _ _ (hne r (List.mem_cons_self r rows))
        (by simpa using hbound)]
      have hih := ih fuel (fun x hx => hne x (List.mem_cons_of_mem r hx))
        (Nat.le_of_succ_le_succ hlen)
      simp [hih]

lemma concatRows_length : ∀ (rows : List (List (List Char))),
    rows.length ≤ (concatRows (rows.map writeRow)).length := by
  intro rows
  induction rows with
  | nil => simp [concatRows]
  | cons r rows ih =>
    simp only [List.map_cons, concatRows, List.length_append, List.length_cons]
    have h2 : 1 ≤ (writeRow r).length := by
      rw [writeRow_eq]
      simp only [List.length_append, List.length_cons, List.length_nil]
      omega
    omega

/-- Writing any list of registrations and reading the file back with the
CSV reader reproduces the header row and every record's 16 field values
exactly. -/
lemma csv_roundtrip (regs : List RegistrationData) :
    readCsv (writeCsvFile regs) = some ((headerFields.map String.toList)
      :: regs.map (fun r => (recordFields r).map String.toList)) := by
  have hfile : writeCsvFile regs
      = concatRows (((headerFields.map String.toList)
          :: regs.map (fun r => (recordFields r).map String.toList)).map writeRow) := by
    simp only [writeCsvFile, List.map_cons, concatRows, List.map_map]
    rfl
  rw [readCsv, hfile]
  apply readRows_roundtrip
  · intro r hr
    rcases List.mem_cons.mp hr with rfl | hr2
    · simp [headerFields]
    · obtain ⟨x, -, rfl⟩ := List.mem_map.mp hr2
      simp [recordFields]
  · calc ((headerFields.map String.toList)
        :: regs.map (fun r => (recordFields r).map String.toList)).length
        ≤ _ := concatRows_length _

/-! ## Substring facts for the skip notice -/

lemma string_toList_append (s t : String) :
    (s ++ t).toList = s.toList ++ t.toList := rfl

lemma isPrefixOf_append_self : ∀ (n post : List Char),
    n.isPrefixOf (n ++ post) = true := by
  intro n post
  induction n with
  | nil => cases post <;> rfl
  | cons c n ih => simp [List.isPrefixOf, ih]

lemma subsearch_infix : ∀ (pre needle post : List Char),
    subsearch needle (pre ++ (needle ++ post)) = true := by
  intro pre
  induction pre with
  | nil =>
    intro needle post
    show subsearch needle (needle ++ post) = true
    cases hnp : needle ++ post with
    | nil =>
      rcases List.append_eq_nil.mp hnp with ⟨rfl, rfl⟩
      rfl
    | cons c t =>
      simp only [subsearch]
      rw [← hnp]
      simp [isPrefixOf_append_self]
  | cons p pre ih =>
    intro needle post
    show subsearch needle (p :: (pre ++ (needle ++ post))) = true
    simp [subsearch, ih needle post]

lemma subsearch_second (p1 a p2 b p3 : List Char) :
    subsearch b (p1 ++ (a ++ (p2 ++ (b ++ p3)))) = true := by
  have h : p1 ++ (a ++ (p2 ++ (b ++ p3))) = (p1 ++ (a ++ p2)) ++ (b ++ p3) := by
    simp [List.append_assoc]
  rw [h]
  exact subsearch_infix (p1 ++ (a ++ p2)) b p3

lemma skipNotice_toList (m : Msg) :
    (skipNotice m).toList
      = "Skipping e-mail from \"".toList
          ++ ((headerShown m.xEnvelopeFrom).toList
          ++ ("\" to \"".toList
          ++ ((headerShown m.xEnvelopeTo).toList ++ "\"".toList))) := by
  simp only [skipNotice, string_toList_append, List.append_assoc]

lemma skipNotice_contains_envelopeFrom (m : Msg) :
    strContains (skipNotice m) (headerShown m.xEnvelopeFrom) = true := by
  show subsearch (headerShown m.xEnvelopeFrom).toList (skipNotice m).toList = true
  rw [skipNotice_toList]
  exact subsearch_infix _ _ _

lemma skipNotice_contains_envelopeTo (m : Msg) :
    strContains (skipNotice m) (headerShown m.xEnvelopeTo) = true := by
  show subsearch (headerShown m.xEnvelopeTo).toList (skipNotice m).toList = true
  rw [skipNotice_toList]
  exact subsearch_second _ _ _ _ _

/-! ## Concrete sample messages -/

/-- A message body matching `EXTRACTION_REGEXP` (the example of the
specification). -/
def sampleText : String :=
  "X-Mailer: WPMailSMTP/Mailer/smtp 1.2.3\nMIME-Version: 1.0\nContent-Type: text/plain; charset=UTF-8\n\n"
    ++ bodyHeaderLine
    ++ "\"1\",\"ABC123\",\"2\",\"paid\",\"Doe\",\"Jane\",\"jane@example.org\",\"\",\"\",\"\",\"\",\"\",\"\",\"\",\"\",\"\""

/-- The group dictionary extracted from `sampleText`. -/
def sampleGroups : Groupdict where
  eintrags_id := "1"
  key := "ABC123"
  anzahl_personen := "2"
  zahlungsstatus := "paid"
  name := "Doe"
  vorname := "Jane"
  mail := "jane@example.org"
  telefon := ""
  sonstiges := ""
  club := ""
  teilnehmer_2 := ""
  teilnehmer_3 := ""
  teilnehmer_4 := ""
  teilnehmer_5 := ""
  teilnehmer_6 := ""
  teilnehmer_7 := ""

/-- A message passing the header filter whose body matches the pattern. -/
def okMsg : Msg where
  xEnvelopeFrom := some expectedEnvelopeFrom
  xEnvelopeTo := some expectedEnvelopeTo
  fromHeader := some expectedFrom
  toHeader := some expectedTo
  text := sampleText

/-- A message passing the header filter whose body does not match. -/
def crashMsg : Msg where
  xEnvelopeFrom := some expectedEnvelopeFrom
  xEnvelopeTo := some expectedEnvelopeTo
  fromHeader := some expectedFrom
  toHeader := some expectedTo
  text := "hello"

/-- A message failing the header filter, whose visible From/To header
values differ from its envelope header values. -/
def mismatchMsg : Msg where
  xEnvelopeFrom := some "a"
  xEnvelopeTo := some "b"
  fromHeader := some "zzz"
  toHeader := some "qqq"
  text := ""

/-! ## Claims -/

/-- C1: a message whose four headers equal the allow-list strings and
whose text matches the extraction regular expression contributes exactly
one record, whose 16 fields are the named capture groups verbatim, and
that record is written as exactly one CSV data row whose 16 values read
back unchanged. -/
theorem claim_C1_match_gives_one_verbatim_row
    (m : Msg) (rest : List Msg) (g : Groupdict)
    (regs : List RegistrationData) (notices : List String)
    (hskip : check_if_message_to_skip m = false)
    (hmatch : extractionSearch m.text = some g)
    (hrest : runRetrieve rest = .ok regs notices) :
    runRetrieve (m :: rest)
        = .ok (RegistrationData.ofGroupdict g :: regs) notices
      ∧ recordFields (RegistrationData.ofGroupdict g) = groupdictFields g
      ∧ readCsv (writeCsvFile (RegistrationData.ofGroupdict g :: regs))
          = some ((headerFields.map String.toList)
              :: ((groupdictFields g).map String.toList)
              :: regs.map (fun r => (recordFields r).map String.toList)) := by
  refine ⟨?_, rfl, ?_⟩
  · simp [runRetrieve, hskip, hmatch, hrest]
  · have h := csv_roundtrip (RegistrationData.ofGroupdict g :: regs)
    simpa using h

/-- Witness for C1 at the specification's example message. -/
theorem claim_C1_witness :
    check_if_message_to_skip okMsg = false
      ∧ extractionSearch okMsg.text = some sampleGroups
      ∧ runRetrieve ([] : List Msg) = .ok [] []
      ∧ (runRetrieve [okMsg]
            = .ok [RegistrationData.ofGroupdict sampleGroups] []
          ∧ recordFields (RegistrationData.ofGroupdict sampleGroups)
              = groupdictFields sampleGroups
          ∧ readCsv (writeCsvFile [RegistrationData.ofGroupdict sampleGroups])
              = some ((headerFields.map String.toList)
                  :: ((groupdictFields sampleGroups).map String.toList)
                  :: ([] : List RegistrationData).map
                      (fun r => (recordFields r).map String.toList))) :=
  ⟨rfl, rfl, rfl,
    claim_C1_match_gives_one_verbatim_row okMsg [] sampleGroups [] [] rfl rfl rfl⟩

/-- C2: a message is skipped (one notice, nothing collected) exactly when
at least one of its four header values differs from the fixed configured
string. -/
theorem claim_C2_skip_iff_header_mismatch
    (m : Msg) (rest : List Msg) (regs : List RegistrationData)
    (notices : List String) (hrest : runRetrieve rest = .ok regs notices) :
    runRetrieve (m :: rest) = .ok regs (skipNotice m :: notices)
      ↔ (m.xEnvelopeFrom ≠ some expectedEnvelopeFrom
          ∨ m.xEnvelopeTo ≠ some expectedEnvelopeTo
          ∨ m.fromHeader ≠ some expectedFrom
          ∨ m.toHeader ≠ some expectedTo) := by
  rw [← check_iff]
  constructor
  · intro h
    by_contra hcn
    have hc : check_if_message_to_skip m = false := Bool.eq_false_iff.mpr hcn
    cases hsearch : extractionSearch m.text with
    | none =>
      have hcrash : runRetrieve (m :: rest) = .crash [] := by
        simp [runRetrieve, hc, hsearch]
      rw [hcrash] at h
      exact RunResult.noConfusion h
    | some g =>
      have hok : runRetrieve (m :: rest)
          = .ok (RegistrationData.ofGroupdict g :: regs) notices := by
        simp [runRetrieve, hc, hsearch, hrest]
      rw [hok] at h
      have hinj := RunResult.ok.inj h
      have hlen := congrArg List.length hinj.1
      simp at hlen
  · intro hct
    simp [runRetrieve, hct, hrest]

/-- Witness for C2 at a message with a mismatched envelope-from header. -/
theorem claim_C2_witness :
    runRetrieve ([] : List Msg) = .ok [] []
      ∧ (runRetrieve [mismatchMsg] = .ok [] [skipNotice mismatchMsg]
          ↔ (mismatchMsg.xEnvelopeFrom ≠ some expectedEnvelopeFrom
              ∨ mismatchMsg.xEnvelopeTo ≠ some expectedEnvelopeTo
              ∨ mismatchMsg.fromHeader ≠ some expectedFrom
              ∨ mismatchMsg.toHeader ≠ some expectedTo)) :=
  ⟨rfl, claim_C2_skip_iff_header_mismatch mismatchMsg [] [] [] rfl⟩

/-- C3: a message passing the header filter whose text does not match the
extraction regular expression crashes the run: no record, no notice, and
the remaining messages are never processed. -/
theorem claim_C3_body_mismatch_crashes
    (m : Msg) (rest : List Msg)
    (hskip : check_if_message_to_skip m = false)
    (hmatch : extractionSearch m.text = none) :
    runRetrieve (m :: rest) = .crash [] := by
  simp [runRetrieve, hskip, hmatch]

/-- Witness for C3 at a filtered-in message with a non-matching body. -/
theorem claim_C3_witness :
    check_if_message_to_skip crashMsg = false
      ∧ extractionSearch crashMsg.text = none
      ∧ runRetrieve [crashMsg] = .crash [] :=
  ⟨rfl, rfl, claim_C3_body_mismatch_crashes crashMsg [] rfl rfl⟩

/-- C4: on a run that completes, the number of skip notices plus the
number of CSV data rows equals the number of messages. -/
theorem claim_C4_notices_plus_rows_eq_messages
    (msgs : List Msg) (regs : List RegistrationData) (notices : List String)
    (h : runRetrieve msgs = .ok regs notices) :
    readCsv (writeCsvFile regs)
        = some ((headerFields.map String.toList)
            :: regs.map (fun r => (recordFields r).map String.toList))
      ∧ notices.length
          + (regs.map (fun r => (recordFields r).map String.toList)).length
          = msgs.length := by
  refine ⟨csv_roundtrip regs, ?_⟩
  have hc := runRetrieve_count h
  simp only [List.length_map]
  omega

/-- Witness for C4 on a two-message mailbox with one skip and one match. -/
theorem claim_C4_witness :
    runRetrieve [okMsg, mismatchMsg]
        = .ok [RegistrationData.ofGroupdict sampleGroups] [skipNotice mismatchMsg]
      ∧ (readCsv (writeCsvFile [RegistrationData.ofGroupdict sampleGroups])
          = some ((headerFields.map String.toList)
              :: [RegistrationData.ofGroupdict sampleGroups].map
                  (fun r => (recordFields r).map String.toList))
        ∧ [skipNotice mismatchMsg].length
            + ([RegistrationData.ofGroupdict sampleGroups].map
                (fun r => (recordFields r).map String.toList)).length
            = [okMsg, mismatchMsg].length) :=
  ⟨rfl, claim_C4_notices_plus_rows_eq_messages [okMsg, mismatchMsg] _ _ rfl⟩

/-- C5: the collected records are exactly the extraction results of the
non-skipped messages in server iteration order, and the CSV data rows
reproduce them in that same order. -/
theorem claim_C5_output_order_is_iteration_order
    (msgs : List Msg) (regs : List RegistrationData) (notices : List String)
    (h : runRetrieve msgs = .ok regs notices) :
    regs = msgs.filterMap (fun m =>
        if check_if_message_to_skip m then none
        else (extractionSearch m.text).map RegistrationData.ofGroupdict)
      ∧ readCsv (writeCsvFile regs)
        = some ((headerFields.map String.toList)
            :: regs.map (fun r => (recordFields r).map String.toList)) :=
  ⟨runRetrieve_ok_records h, csv_roundtrip regs⟩

/-- Witness for C5 on a two-message mailbox. -/
theorem claim_C5_witness :
    runRetrieve [mismatchMsg, okMsg]
        = .ok [RegistrationData.ofGroupdict sampleGroups] [skipNotice mismatchMsg]
      ∧ ([RegistrationData.ofGroupdict sampleGroups]
          = [mismatchMsg, okMsg].filterMap (fun m =>
              if check_if_message_to_skip m then none
              else (extractionSearch m.text).map RegistrationData.ofGroupdict)
        ∧ readCsv (writeCsvFile [RegistrationData.ofGroupdict sampleGroups])
          = some ((headerFields.map String.toList)
              :: [RegistrationData.ofGroupdict sampleGroups].map
                  (fun r => (recordFields r).map String.toList))) :=
  ⟨rfl, claim_C5_output_order_is_iteration_order [mismatchMsg, okMsg] _ _ rfl⟩

/-- C6: writing any list of records and reading the file back with the
CSV reader reproduces every field value exactly, embedded commas and
double quotes included (the record fields are arbitrary strings here). -/
theorem claim_C6_csv_roundtrip (registrations : List RegistrationData) :
    readCsv (writeCsvFile registrations)
      = some ((headerFields.map String.toList)
          :: registrations.map (fun r => (recordFields r).map String.toList)) :=
  csv_roundtrip registrations

/-- C7: when retrieval crashes, `main` never reaches the write step, so
no CSV file is created. -/
theorem claim_C7_no_partial_output
    (msgs : List Msg) (notices : List String)
    (h : runRetrieve msgs = .crash notices) :
    mainRun msgs = none := by
  simp [mainRun, h]

/-- Witness for C7 at a crashing mailbox. -/
theorem claim_C7_witness :
    runRetrieve [crashMsg] = .crash [] ∧ mainRun [crashMsg] = none :=
  ⟨rfl, claim_C7_no_partial_output [crashMsg] [] rfl⟩

/-- C8 counterexample: a skipped message produces one notice, but the
notice contains the X-Envelope-From/X-Envelope-To values, not the From/To
header values: here the From value `zzz` and the To value `qqq` do not
occur in the notice. -/
theorem claim_C8_counterexample :
    check_if_message_to_skip mismatchMsg = true
      ∧ runRetrieve [mismatchMsg] = .ok [] [skipNotice mismatchMsg]
      ∧ strContains (skipNotice mismatchMsg)
          (headerShown mismatchMsg.fromHeader) = false
      ∧ strContains (skipNotice mismatchMsg)
          (headerShown mismatchMsg.toHeader) = false := by
  refine ⟨rfl, rfl, ?_, ?_⟩ <;> decide

/-- C8 (amended): a message failing a header check produces no record and
exactly one skip notice, and that notice contains the message's
X-Envelope-From and X-Envelope-To header values (as printed). -/
theorem claim_C8_skip_notice_contents
    (m : Msg) (rest : List Msg) (regs : List RegistrationData)
    (notices : List String)
    (hskip : check_if_message_to_skip m = true)
    (hrest : runRetrieve rest = .ok regs notices) :
    runRetrieve (m :: rest) = .ok regs (skipNotice m :: notices)
      ∧ strContains (skipNotice m) (headerShown m.xEnvelopeFrom) = true
      ∧ strContains (skipNotice m) (headerShown m.xEnvelopeTo) = true :=
  ⟨by simp [runRetrieve, hskip, hrest],
    skipNotice_contains_envelopeFrom m, skipNotice_contains_envelopeTo m⟩

/-- Witness for the amended C8 at a mismatched message. -/
theorem claim_C8_witness :
    check_if_message_to_skip mismatchMsg = true
      ∧ runRetrieve ([] : List Msg) = .ok [] []
      ∧ (runRetrieve [mismatchMsg] = .ok [] [skipNotice mismatchMsg]
          ∧ strContains (skipNotice mismatchMsg)
              (headerShown mismatchMsg.xEnvelopeFrom) = true
          ∧ strContains (skipNotice mismatchMsg)
              (headerShown mismatchMsg.xEnvelopeTo) = true) :=
  ⟨rfl, rfl, claim_C8_skip_notice_contents mismatchMsg [] [] [] rfl rfl⟩

/-- C9: every output record is a verbatim copy of a group dictionary the
regular expression produced, and its `eintrags_id` and `anzahl_personen`
fields consist only of digit characters. -/
theorem claim_C9_verbatim_fields_digit_classes
    (msgs : List Msg) (regs : List RegistrationData) (notices : List String)
    (h : runRetrieve msgs = .ok regs notices) :
    ∀ r ∈ regs, ∃ g, r = RegistrationData.ofGroupdict g
      ∧ recordFields r = groupdictFields g
      ∧ digitsOnly r.eintrags_id = true
      ∧ digitsOnly r.anzahl_personen = true := by
  intro r hr
  obtain ⟨m, g, -, -, hsearch, rfl⟩ := runRetrieve_ok_mem h r hr
  obtain ⟨t, hmt⟩ := searchGroups_matchAt hsearch
  obtain ⟨d1, d2, -⟩ := matchAt_props hmt
  exact ⟨g, rfl, rfl, d1, d2⟩

/-- Witness for C9 on the one-message mailbox. -/
theorem claim_C9_witness :
    runRetrieve [okMsg] = .ok [RegistrationData.ofGroupdict sampleGroups] []
      ∧ ∀ r ∈ [RegistrationData.ofGroupdict sampleGroups],
          ∃ g, r = RegistrationData.ofGroupdict g
            ∧ recordFields r = groupdictFields g
            ∧ digitsOnly r.eintrags_id = true
            ∧ digitsOnly r.anzahl_personen = true :=
  ⟨rfl, claim_C9_verbatim_fields_digit_classes [okMsg] _ _ rfl⟩

/-- C10: no field of any output record contains a double-quote character:
every capture group of the extraction regular expression excludes it. -/
theorem claim_C10_no_double_quote_in_fields
    (msgs : List Msg) (regs : List RegistrationData) (notices : List String)
    (h : runRetrieve msgs = .ok regs notices) :
    ∀ r ∈ regs, (recordFields r).all quoteFree = true := by
  intro r hr
  obtain ⟨m, g, -, -, hsearch, rfl⟩ := runRetrieve_ok_mem h r hr
  obtain ⟨t, hmt⟩ := searchGroups_matchAt hsearch
  obtain ⟨-, -, hq⟩ := matchAt_props hmt
  exact hq

/-- Witness for C10 on the one-message mailbox. -/
theorem claim_C10_witness :
    runRetrieve [okMsg] = .ok [RegistrationData.ofGroupdict sampleGroups] []
      ∧ ∀ r ∈ [RegistrationData.ofGroupdict sampleGroups],
          (recordFields r).all quoteFree = true :=
  ⟨rfl, claim_C10_no_double_quote_in_fields [okMsg] _ _ rfl⟩

end MailExtractor
